import Mathlib

/-!
Verification development for the PDF-to-Word converter repository.

The definitions below are a shallow embedding of the orchestration core:

* the hand-rolled multipart/form-data parser and the `/api/convert`
  handler of `web_server.py` (`handle_convert`),
* the download resolution of `web_server.py` (`handle_download`),
* the batch dispatcher of `batch_convert.py` (`process_file`,
  `batch_convert`),
* the task-registry writes performed by the background conversion
  thread of `web_server.py` (`convert_thread`), modelled as an explicit
  interleaving transition system.

Raw request bytes are modelled as `List Char` (the payloads are ASCII;
one `Char` stands for one byte).  Python `bytes`/`str` operations used
by the source (`split`, `strip`, `lower`, `startswith`, `endswith`,
`int(...)`) are reproduced by the `py*` helpers below with the same
semantics on the inputs the server manipulates.
-/

set_option maxRecDepth 100000

namespace PdfOcr

/-- Bytes of a request body / filename; one `Char` per byte. -/
abbrev Bytes := List Char

/-- Python's default whitespace set for `bytes.strip()`. -/
def isPySpace (c : Char) : Bool :=
  c == ' ' || c == '\t' || c == '\n' || c == '\r' || c == '\x0b' || c == '\x0c'

/-- Drop trailing characters satisfying `p`. -/
def dropTrailing (p : Char → Bool) (s : Bytes) : Bytes :=
  (s.reverse.dropWhile p).reverse

/-- Python `bytes.strip()` with no argument. -/
def pyStrip (s : Bytes) : Bytes :=
  dropTrailing isPySpace (s.dropWhile isPySpace)

/-- Python `str.strip('"')`: remove all leading and trailing double quotes. -/
def stripQuotes (s : Bytes) : Bytes :=
  dropTrailing (· == '"') (s.dropWhile (· == '"'))

/-- ASCII lower-casing of one byte, as Python `bytes.lower` does per byte. -/
def asciiLower (c : Char) : Char :=
  if 'A' ≤ c ∧ c ≤ 'Z' then Char.ofNat (c.toNat + 32) else c

/-- Python `bytes.lower()` / ASCII `str.lower()`. -/
def lowerBytes (s : Bytes) : Bytes := s.map asciiLower

/-- Split at the first occurrence of `sep`, returning the pieces before and
after it; `none` when `sep` does not occur (Python `split(sep, 1)` yielding a
single piece, which makes the source's two-variable unpacking raise). -/
def splitFirst (sep : Bytes) : Bytes → Option (Bytes × Bytes)
  | [] => if sep.isEmpty then some ([], []) else none
  | c :: rest =>
    if sep.isPrefixOf (c :: rest) then some ([], (c :: rest).drop sep.length)
    else (splitFirst sep rest).map (fun q => (c :: q.1, q.2))

/-- Fuelled worker for `pySplit`; the fuel `s.length + 1` always suffices for a
non-empty separator. -/
def pySplitGo (sep : Bytes) : Nat → Bytes → List Bytes
  | 0, s => [s]
  | n + 1, s =>
    match splitFirst sep s with
    | none => [s]
    | some (b, a) => b :: pySplitGo sep n a

/-- Python `bytes.split(sep)` for a non-empty separator: non-overlapping
left-to-right splitting, keeping empty pieces. -/
def pySplit (sep s : Bytes) : List Bytes := pySplitGo sep (s.length + 1) s

/-- Numeric value of an ASCII digit. -/
def digitVal (c : Char) : Nat := c.toNat - 48

/-- Continue Python `int()` digit parsing: digits with single underscores
allowed between digits only. -/
def parseDigitsGo : Nat → Bytes → Option Nat
  | acc, [] => some acc
  | _, ['_'] => none
  | acc, '_' :: c :: rest =>
    if c.isDigit then parseDigitsGo (acc * 10 + digitVal c) rest else none
  | acc, c :: rest =>
    if c.isDigit then parseDigitsGo (acc * 10 + digitVal c) rest else none

/-- Python `int()` digit-run parsing (no sign): at least one digit, single
underscores permitted between digits. -/
def parseDigits : Bytes → Option Nat
  | [] => none
  | c :: rest => if c.isDigit then parseDigitsGo (digitVal c) rest else none

/-- Python `int(str)` on an already-stripped string: optional sign followed by
an underscore-grouped digit run; `none` models the `ValueError`. -/
def pyParseInt : Bytes → Option Int
  | '+' :: rest => (parseDigits rest).map (fun n => (n : Int))
  | '-' :: rest => (parseDigits rest).map (fun n => -(n : Int))
  | s => (parseDigits s).map (fun n => (n : Int))

/-- Lookup in a Python-dict-like association list where a later binding for
the same key overwrites an earlier one (last wins). -/
def dictGet (d : List (Bytes × Bytes)) (k : Bytes) : Option Bytes :=
  match d with
  | [] => none
  | (k', v) :: rest =>
    match dictGet rest k with
    | some v' => some v'
    | none => if k' = k then some v else none

/-- The byte pair `\r\n`. -/
def crlf : Bytes := ['\r', '\n']

/-- The blank-line separator `\r\n\r\n` between part headers and content. -/
def crlf2 : Bytes := ['\r', '\n', '\r', '\n']

/-- Lower-cased header key the handler reads. -/
def keyContentDisposition : Bytes := "content-disposition".toList

/-- `Content-Disposition` attribute carrying the original filename. -/
def keyFilename : Bytes := "filename".toList

/-- `Content-Disposition` attribute carrying the form-field name. -/
def keyName : Bytes := "name".toList

/-- The file field name the handler accepts. -/
def fieldPdfFile : Bytes := "pdf_file".toList

/-- The OCR-language field name. -/
def fieldOcrLang : Bytes := "ocr_lang".toList

/-- The resolution field name. -/
def fieldDpi : Bytes := "dpi".toList

/-- Default OCR language (`ocr_lang = 'eng'` in `handle_convert`). -/
def defaultLang : Bytes := "eng".toList

/-- Header dictionary of one part: the source strips the raw header block,
splits it on `\r\n`, and for every line containing `:` maps the stripped,
lower-cased name to the stripped value (later lines overwrite earlier ones). -/
def parseHeaders (headersRaw : Bytes) : List (Bytes × Bytes) :=
  (pySplit crlf (pyStrip headersRaw)).foldl
    (fun d line =>
      if line.contains ':' then
        match splitFirst [':'] line with
        | some (n, v) => d ++ [(lowerBytes (pyStrip n), pyStrip v)]
        | none => d
      else d)
    []

/-- `parts_dict` of `handle_convert`: split the `Content-Disposition` value on
`;`, strip each item, and for every item containing `=` map the key (up to the
first `=`) to the value with surrounding double quotes stripped. -/
def dispositionDict (disp : Bytes) : List (Bytes × Bytes) :=
  (pySplit [';'] disp).foldl
    (fun d item0 =>
      let item := pyStrip item0
      if item.contains '=' then
        match splitFirst ['='] item with
        | some (k, v) => d ++ [(k, stripQuotes v)]
        | none => d
      else d)
    []

/-- Stage a multipart segment up to its `parts_dict`: skip segments that strip
to empty or to `--`; split once on the blank line (`none` models the caught
`ValueError` when the separator is absent, which makes the source `continue`);
require a `content-disposition` header; return its attribute dictionary
together with the raw content bytes. -/
def partFields (part : Bytes) : Option (List (Bytes × Bytes) × Bytes) :=
  if pyStrip part = [] ∨ pyStrip part = ['-', '-'] then none
  else
    match splitFirst crlf2 part with
    | none => none
    | some (headersRaw, content) =>
      match dictGet (parseHeaders headersRaw) keyContentDisposition with
      | none => none
      | some disp => some (dispositionDict disp, content)

/-- Remove one trailing `\r\n` from file content, as the source does before
storing the uploaded bytes. -/
def trimCrlfEnd (content : Bytes) : Bytes :=
  if crlf.isSuffixOf content then content.take (content.length - 2) else content

/-- Mutable locals of the parsing loop in `handle_convert`. -/
structure ParseState where
  pdfFile : Option Bytes
  pdfFilename : Option Bytes
  ocrLang : Bytes
  dpi : Int
deriving DecidableEq, Repr

/-- Loop-entry state: `pdf_file = None`, `pdf_filename = None`,
`ocr_lang = 'eng'`, `dpi = 300`. -/
def initParseState : ParseState :=
  { pdfFile := none, pdfFilename := none, ocrLang := defaultLang, dpi := 300 }

/-- One iteration of the part-processing loop of `handle_convert`: a part with
a `filename` attribute is consumed as the file part only when its field name
is exactly `pdf_file` (the content loses one trailing `\r\n`); otherwise a
part with a `name` attribute may set `ocr_lang` (stripped content) or `dpi`
(stripped content parsed as an integer, keeping the old value on failure). -/
def processPart (st : ParseState) (part : Bytes) : ParseState :=
  match partFields part with
  | none => st
  | some (pd, content) =>
    match dictGet pd keyFilename with
    | some fname =>
      if dictGet pd keyName = some fieldPdfFile then
        { st with pdfFilename := some fname, pdfFile := some (trimCrlfEnd content) }
      else st
    | none =>
      match dictGet pd keyName with
      | some nm =>
        if nm = fieldOcrLang then { st with ocrLang := pyStrip content }
        else if nm = fieldDpi then
          match pyParseInt (pyStrip content) with
          | some n => { st with dpi := n }
          | none => st
        else st
      | none => st

/-- The delimiter the body is split on: `b'--' + boundary`. -/
def boundaryDelim (boundary : Bytes) : Bytes := '-' :: '-' :: boundary

/-- The segments of the body, in body order. -/
def parseParts (body boundary : Bytes) : List Bytes :=
  pySplit (boundaryDelim boundary) body

/-- Result of the whole parsing loop of `handle_convert`. -/
def extractState (body boundary : Bytes) : ParseState :=
  (parseParts body boundary).foldl processPart initParseState

/-- Data of a segment that qualifies as the file part (has a `filename`
attribute AND field name `pdf_file`): the declared filename and the content
bytes with one trailing `\r\n` removed.  Mirrors exactly the file branch of
`processPart`. -/
def filePartData (part : Bytes) : Option (Bytes × Bytes) :=
  match partFields part with
  | none => none
  | some (pd, content) =>
    match dictGet pd keyFilename with
    | some fname =>
      if dictGet pd keyName = some fieldPdfFile then
        some (fname, trimCrlfEnd content)
      else none
    | none => none

/-- Value a segment assigns to `ocr_lang` (present only for a field part whose
name is `ocr_lang`). -/
def langFieldData (part : Bytes) : Option Bytes :=
  match partFields part with
  | none => none
  | some (pd, content) =>
    match dictGet pd keyFilename with
    | some _ => none
    | none =>
      match dictGet pd keyName with
      | some nm => if nm = fieldOcrLang then some (pyStrip content) else none
      | none => none

/-- Value a segment assigns to `dpi` (present only for a field part whose name
is `dpi` and whose stripped content parses as an integer). -/
def dpiFieldData (part : Bytes) : Option Int :=
  match partFields part with
  | none => none
  | some (pd, content) =>
    match dictGet pd keyFilename with
    | some _ => none
    | none =>
      match dictGet pd keyName with
      | some nm =>
        if nm = fieldOcrLang then none
        else if nm = fieldDpi then pyParseInt (pyStrip content) else none
      | none => none

/-- The `filename` attribute of a segment's `parts_dict`, when the segment
survives to disposition parsing. -/
def partFilename (part : Bytes) : Option Bytes :=
  match partFields part with
  | none => none
  | some (pd, _) => dictGet pd keyFilename

/-- The `name` attribute of a segment's `parts_dict`, when the segment
survives to disposition parsing. -/
def partName (part : Bytes) : Option Bytes :=
  match partFields part with
  | none => none
  | some (pd, _) => dictGet pd keyName

/-- The data of the last segment, in body order, that qualifies as the file
part (the loop overwrites `pdf_file`/`pdf_filename` on every qualifying
segment, so the last one wins). -/
def lastFilePart : List Bytes → Option (Bytes × Bytes)
  | [] => none
  | p :: rest =>
    match lastFilePart rest with
    | some x => some x
    | none => filePartData p

/-- Outcome of `handle_convert` after the parsing loop: either a JSON error
reply (the handler returns before writing any upload bytes and before starting
any conversion thread), or acceptance carrying the sanitized stored filename,
the stored upload bytes, and the OCR parameters passed to the conversion
thread. -/
inductive ConvertOutcome where
  | clientError (msg : String)
  | accepted (storedFilename : Bytes) (storedBytes : Bytes)
      (ocrLang : Bytes) (dpi : Int)
deriving DecidableEq, Repr

/-- `handle_convert` after reading the body: run the parsing loop; reply
`No PDF file uploaded` when no file part was recovered; otherwise sanitize the
filename (`secure_filename`, an external library call, is a parameter) and
reject it unless it ends in `.pdf` case-insensitively; otherwise accept.  In
the source, writing the upload file, registering the conversion thread and
returning the task id all happen strictly after both error returns. -/
def handle_convert (sanitize : Bytes → Bytes) (body boundary : Bytes) :
    ConvertOutcome :=
  let st := extractState body boundary
  match st.pdfFile, st.pdfFilename with
  | some fileBytes, some origName =>
    let fname := sanitize origName
    if (".pdf".toList).isSuffixOf (lowerBytes fname) then
      .accepted fname fileBytes st.ocrLang st.dpi
    else .clientError "Invalid file type. Only PDF files are supported."
  | _, _ => .clientError "No PDF file uploaded"

/-- Whether the outcome registers a conversion task (starts the background
thread): only the accepted path of `handle_convert` reaches
`threading.Thread(...).start()`. -/
def registersTask : ConvertOutcome → Bool
  | .accepted _ _ _ _ => true
  | .clientError _ => false

/-- The upload persisted by the outcome (name and bytes): only the accepted
path of `handle_convert` reaches the `open(pdf_path, 'wb')` write. -/
def persistedUpload : ConvertOutcome → Option (Bytes × Bytes)
  | .accepted fname fileBytes _ _ => some (fname, fileBytes)
  | .clientError _ => none

/-- `handle_download`: scan the stored artifact names in order and serve the
first one that starts with the requested identifier; `none` models the
404 reply sent when no stored name matches. -/
def handle_download (stored : List Bytes) (fileId : Bytes) : Option Bytes :=
  stored.find? (fun name => fileId.isPrefixOf name)

/-- The identifier `do_GET` extracts from a `/download/...` request path:
`path.split('/')[-1]`. -/
def downloadFileId (path : Bytes) : Bytes :=
  (pySplit ['/'] path).getLastD []

/-!  Batch dispatcher (`batch_convert.py`).  The Conversion Engine call for
one item either returns a success boolean after some elapsed time, or raises;
elapsed times are modelled as rationals. -/

/-- Behaviour of one `convert_pdf_to_word` invocation inside a batch worker. -/
inductive EngineRun where
  | ret (success : Bool) (elapsed : ℚ)
  | exn (msg : String)
deriving DecidableEq

/-- `process_file`: invoke the engine on one item; an exception is caught and
recorded as `(path, False, 0)`, a normal return as
`(path, success, elapsed)`. -/
def process_file {α : Type} (engine : α → EngineRun) (pdfPath : α) :
    α × Bool × ℚ :=
  match engine pdfPath with
  | .ret s t => (pdfPath, s, t)
  | .exn _ => (pdfPath, false, 0)

/-- The run summary printed and returned by `batch_convert`: counters
accumulated over the worker results, plus the average computed only when at
least one item succeeded. -/
structure BatchSummary where
  successful : Nat
  failed : Nat
  totalTime : ℚ
  avgTime : Option ℚ
deriving DecidableEq

/-- Result of a `batch_convert` run: `noFiles` models the early
`return False` when input resolution finds nothing; otherwise the summary. -/
inductive BatchOutcome where
  | noFiles
  | done (s : BatchSummary)
deriving DecidableEq

/-- Body of the accumulation loop over `executor.map(process_file, ...)`
results: a success increments `successful` and adds its elapsed time to
`total_time`, a failure increments `failed`. -/
def tallyStep {α : Type} (engine : α → EngineRun) (acc : Nat × Nat × ℚ)
    (pdf : α) : Nat × Nat × ℚ :=
  let r := process_file engine pdf
  if r.2.1 then (acc.1 + 1, acc.2.1, acc.2.2 + r.2.2)
  else (acc.1, acc.2.1 + 1, acc.2.2)

/-- The accumulation loop of `batch_convert`:
`(successful, failed, total_time)` starting from `(0, 0, 0)`. -/
def batchTally {α : Type} (engine : α → EngineRun) (files : List α) :
    Nat × Nat × ℚ :=
  files.foldl (tallyStep engine) (0, 0, 0)

/-- `batch_convert` over the already-resolved input list: empty resolution
returns `False` immediately; otherwise all items are processed, tallied, the
average time is computed only when `successful > 0`, and the run succeeds iff
`successful > 0`. -/
def batch_convert {α : Type} (engine : α → EngineRun) (files : List α) :
    BatchOutcome :=
  if files.isEmpty then .noFiles
  else
    let t := batchTally engine files
    .done
      { successful := t.1, failed := t.2.1, totalTime := t.2.2,
        avgTime := if 0 < t.1 then some (t.2.2 / (t.1 : ℚ)) else none }

/-- The boolean `batch_convert` returns: `False` for empty resolution,
`successful > 0` otherwise. -/
def batchSuccess : BatchOutcome → Bool
  | .noFiles => false
  | .done s => 0 < s.successful

/-- The CLI exit code of `batch_convert.py`'s `main`: 0 when the run
succeeded, 1 otherwise. -/
def batchMainExit {α : Type} (engine : α → EngineRun) (files : List α) : Nat :=
  if batchSuccess (batch_convert engine files) then 0 else 1

/-!  Task registry (`web_server.py`).  `conversion_tasks` is the shared map;
each accepted upload spawns one `convert_thread` whose only registry effects
are two writes to its own key: first the `processing` entry, then a terminal
entry determined by the engine outcome.  The interleaving of these writes with
other threads (and with the handler's own reply) is modelled as an explicit
step relation. -/

/-- The `status` strings written into `conversion_tasks`. -/
inductive Status where
  | processing
  | completed
  | failed
deriving DecidableEq, Repr

/-- Whether a status is terminal. -/
def Status.isTerminal : Status → Bool
  | .processing => false
  | .completed => true
  | .failed => true

/-- One value of the `conversion_tasks` map, with the fields the source
stores. -/
structure TaskEntry where
  status : Status
  progress : Nat
  error : Option String := none
  download_url : Option String := none
  filename : Option String := none
deriving DecidableEq, Repr

/-- Outcome of the `convert_pdf_to_word` call inside `convert_thread`. -/
inductive EngineResult where
  | success
  | failure
  | exn (msg : String)
deriving DecidableEq, Repr

/-- Per-task data fixed at submission time. -/
structure TaskParams where
  res : EngineResult
  fileId : String
  outputFilename : String
deriving DecidableEq

/-- The first registry write of `convert_thread`:
`{'status': 'processing', 'progress': 0}`. -/
def processingEntry : TaskEntry := { status := .processing, progress := 0 }

/-- The second (terminal) registry write of `convert_thread`: on engine
success the `completed` entry with download locator and filename; on engine
`False` the `failed` entry with message `Conversion failed`; on a raised
exception the `failed` entry with the captured message. -/
def terminalEntry (p : TaskParams) : TaskEntry :=
  match p.res with
  | .success =>
    { status := .completed, progress := 100,
      download_url := some ("/download/" ++ p.fileId ++ "_" ++ p.outputFilename),
      filename := some p.outputFilename }
  | .failure =>
    { status := .failed, progress := 100, error := some "Conversion failed" }
  | .exn m => { status := .failed, progress := 100, error := some m }

/-- The complete write sequence of one `convert_thread` to its own key. -/
def workerWrites (p : TaskParams) : List TaskEntry :=
  [processingEntry, terminalEntry p]

/-- Pointwise map update. -/
def upd {ι β : Type} [DecidableEq ι] (f : ι → β) (i : ι) (v : β) : ι → β :=
  fun j => if j = i then v else f j

/-- Global state of the registry and of all background workers: per task, the
writes the worker has not yet performed, and the registry's current entry. -/
structure RegState (ι : Type) where
  remaining : ι → List TaskEntry
  registry : ι → Option TaskEntry

/-- Initial state once the workers have been spawned: every worker still has
its full write sequence pending and no registry entry exists. -/
def initRegState {ι : Type} (ps : ι → TaskParams) : RegState ι :=
  { remaining := fun i => workerWrites (ps i), registry := fun _ => none }

/-- One scheduler step: the worker owning task `i` performs its next registry
write to key `i` (a worker with nothing left does nothing). -/
def workerStep {ι : Type} [DecidableEq ι] (s : RegState ι) (i : ι) :
    RegState ι :=
  match s.remaining i with
  | [] => s
  | e :: rest =>
    { remaining := upd s.remaining i rest,
      registry := upd s.registry i (some e) }

/-- Run a schedule (an arbitrary interleaving of worker steps). -/
def runSched {ι : Type} [DecidableEq ι] (s : RegState ι) (sched : List ι) :
    RegState ι :=
  sched.foldl workerStep s

/-- Number of occurrences of `i` in a schedule. -/
def countOcc {ι : Type} [DecidableEq ι] (i : ι) : List ι → Nat
  | [] => 0
  | j :: rest => (if j = i then 1 else 0) + countOcc i rest

/-- Registry entry for a task whose worker has performed `n` of its two
writes. -/
def regAfter (p : TaskParams) (n : Nat) : Option TaskEntry :=
  match n with
  | 0 => none
  | 1 => some processingEntry
  | _ + 2 => some (terminalEntry p)

/-- Intermediate global state in which each worker `i` has already performed
`c i` of its writes. -/
def midRegState {ι : Type} (ps : ι → TaskParams) (c : ι → Nat) : RegState ι :=
  { remaining := fun i => (workerWrites (ps i)).drop (c i),
    registry := fun i => regAfter (ps i) (c i) }

/-!  Single-submission view (`handle_convert` + its `convert_thread`): after
`thread.start()` the handler's `serve_json` reply (returning the task id) and
the worker's two registry writes interleave freely. -/

/-- Interleaved events after `thread.start()`: the handler sends its reply,
or the worker performs its next registry write. -/
inductive SubmitStep where
  | respond
  | work
deriving DecidableEq, Repr

/-- State of one submission: whether the handler has already replied with the
task id, the registry entry under this task's key, and the worker's pending
writes. -/
structure SubmitState where
  responded : Bool
  registry : Option TaskEntry
  remaining : List TaskEntry
deriving DecidableEq, Repr

/-- State immediately after `thread.start()`: reply not yet sent, no registry
entry for the fresh id, both worker writes pending. -/
def submitInit (p : TaskParams) : SubmitState :=
  { responded := false, registry := none, remaining := workerWrites p }

/-- One interleaving step of the submission. -/
def submitStepFn (s : SubmitState) : SubmitStep → SubmitState
  | .respond => { s with responded := true }
  | .work =>
    match s.remaining with
    | [] => s
    | e :: rest => { s with registry := some e, remaining := rest }

/-- Run an interleaving of the submission. -/
def runSubmit (s : SubmitState) (sched : List SubmitStep) : SubmitState :=
  sched.foldl submitStepFn s

/-- Pointwise description of a reachable global state: each worker `i` has
performed `c i` of its writes. -/
def RegSpec {ι : Type} (ps : ι → TaskParams) (c : ι → Nat) (s : RegState ι) :
    Prop :=
  ∀ i, s.remaining i = (workerWrites (ps i)).drop (c i) ∧
       s.registry i = regAfter (ps i) (c i)

/-- Invariant of one submission: the registry entry under the task's key and
the worker's pending writes are always in one of three phases — nothing
written yet, the `processing` entry written, or the terminal entry written. -/
def SubmitInv (p : TaskParams) (s : SubmitState) : Prop :=
  (s.registry = none ∧ s.remaining = workerWrites p)
  ∨ (s.registry = some processingEntry ∧ s.remaining = [terminalEntry p])
  ∨ (s.registry = some (terminalEntry p) ∧ s.remaining = [])

/-- A concrete body whose only filename-bearing part is a `.txt` upload under
the correct field name. -/
def bodyTxtUpload : Bytes :=
  ("--B\r\nContent-Disposition: form-data; name=\"pdf_file\"; " ++
   "filename=\"a.txt\"\r\n\r\nAAA\r\n--B--").toList

/-- A concrete body carrying two qualifying file parts (`a.pdf` then
`b.pdf`). -/
def bodyTwoFileParts : Bytes :=
  ("--B\r\nContent-Disposition: form-data; name=\"pdf_file\"; " ++
   "filename=\"a.pdf\"\r\n\r\nAAA\r\n" ++
   "--B\r\nContent-Disposition: form-data; name=\"pdf_file\"; " ++
   "filename=\"b.pdf\"\r\n\r\nBBB\r\n--B--").toList

/-- A concrete body whose only filename-bearing part uses field name
`other`. -/
def bodyForeignFilePart : Bytes :=
  ("--B\r\nContent-Disposition: form-data; name=\"other\"; " ++
   "filename=\"a.pdf\"\r\n\r\nAAA\r\n--B--").toList


/-!  Helper lemmas about the parsing loop. -/

/-- The `pdf_file`/`pdf_filename` effect of one loop iteration is exactly
described by `filePartData`. -/
lemma processPart_pdf (st : ParseState) (part : Bytes) :
    (processPart st part).pdfFilename =
      (match filePartData part with
       | none => st.pdfFilename
       | some x => some x.1) ∧
    (processPart st part).pdfFile =
      (match filePartData part with
       | none => st.pdfFile
       | some x => some x.2) := by
  unfold processPart filePartData
  cases hpf : partFields part with
  | none => exact ⟨rfl, rfl⟩
  | some pc =>
    obtain ⟨pd, content⟩ := pc
    cases hfn : dictGet pd keyFilename with
    | some fname =>
      by_cases h : dictGet pd keyName = some fieldPdfFile
      · simp [hfn, h]
      · simp [hfn, h]
    | none =>
      cases hnm : dictGet pd keyName with
      | none => simp [hfn, hnm]
      | some nm =>
        by_cases h1 : nm = fieldOcrLang
        · simp [hfn, hnm, h1]
        · by_cases h2 : nm = fieldDpi
          · subst h2
            cases hint : pyParseInt (pyStrip content) <;>
              simp [hfn, hnm, h1, hint]
          · simp [hfn, hnm, h1, h2]

/-- The `ocr_lang` effect of one loop iteration is exactly described by
`langFieldData`. -/
lemma processPart_lang (st : ParseState) (part : Bytes) :
    (processPart st part).ocrLang =
      (match langFieldData part with
       | none => st.ocrLang
       | some v => v) := by
  unfold processPart langFieldData
  cases hpf : partFields part with
  | none => rfl
  | some pc =>
    obtain ⟨pd, content⟩ := pc
    cases hfn : dictGet pd keyFilename with
    | some fname =>
      by_cases h : dictGet pd keyName = some fieldPdfFile
      · simp [hfn, h]
      · simp [hfn, h]
    | none =>
      cases hnm : dictGet pd keyName with
      | none => simp [hfn, hnm]
      | some nm =>
        by_cases h1 : nm = fieldOcrLang
        · simp [hfn, hnm, h1]
        · by_cases h2 : nm = fieldDpi
          · subst h2
            cases hint : pyParseInt (pyStrip content) <;>
              simp [hfn, hnm, h1, hint]
          · simp [hfn, hnm, h1, h2]

/-- The `dpi` effect of one loop iteration is exactly described by
`dpiFieldData`. -/
lemma processPart_dpi (st : ParseState) (part : Bytes) :
    (processPart st part).dpi =
      (match dpiFieldData part with
       | none => st.dpi
       | some n => n) := by
  unfold processPart dpiFieldData
  cases hpf : partFields part with
  | none => rfl
  | some pc =>
    obtain ⟨pd, content⟩ := pc
    cases hfn : dictGet pd keyFilename with
    | some fname =>
      by_cases h : dictGet pd keyName = some fieldPdfFile
      · simp [hfn, h]
      · simp [hfn, h]
    | none =>
      cases hnm : dictGet pd keyName with
      | none => simp [hfn, hnm]
      | some nm =>
        by_cases h1 : nm = fieldOcrLang
        · simp [hfn, hnm, h1]
        · by_cases h2 : nm = fieldDpi
          · subst h2
            cases hint : pyParseInt (pyStrip content) <;>
              simp [hfn, hnm, h1, hint]
          · simp [hfn, hnm, h1, h2]

/-- Over the whole loop, `pdf_filename`/`pdf_file` hold the data of the last
qualifying file part, and the initial values when none qualifies. -/
lemma foldl_processPart_pdf (parts : List Bytes) (st : ParseState) :
    (parts.foldl processPart st).pdfFilename =
      (match lastFilePart parts with
       | none => st.pdfFilename
       | some x => some x.1) ∧
    (parts.foldl processPart st).pdfFile =
      (match lastFilePart parts with
       | none => st.pdfFile
       | some x => some x.2) := by
  induction parts generalizing st with
  | nil => exact ⟨rfl, rfl⟩
  | cons p rest ih =>
    have hp := processPart_pdf st p
    have hr := ih (processPart st p)
    cases hrest : lastFilePart rest with
    | some x =>
      simp only [List.foldl_cons, lastFilePart, hrest]
      rw [hrest] at hr
      exact hr
    | none =>
      simp only [List.foldl_cons, lastFilePart, hrest]
      rw [hrest] at hr
      cases hfp : filePartData p with
      | none =>
        rw [hfp] at hp
        exact ⟨hr.1.trans hp.1, hr.2.trans hp.2⟩
      | some x =>
        rw [hfp] at hp
        exact ⟨hr.1.trans hp.1, hr.2.trans hp.2⟩

/-- If no segment assigns `ocr_lang`, the loop leaves it unchanged. -/
lemma foldl_processPart_lang (parts : List Bytes) (st : ParseState)
    (h : ∀ p ∈ parts, langFieldData p = none) :
    (parts.foldl processPart st).ocrLang = st.ocrLang := by
  induction parts generalizing st with
  | nil => rfl
  | cons p rest ih =>
    have hp := processPart_lang st p
    rw [h p (by simp)] at hp
    simp only [List.foldl_cons]
    rw [ih (processPart st p) (fun q hq => h q (by simp [hq]))]
    exact hp

/-- If no segment assigns a parsed `dpi`, the loop leaves it unchanged. -/
lemma foldl_processPart_dpi (parts : List Bytes) (st : ParseState)
    (h : ∀ p ∈ parts, dpiFieldData p = none) :
    (parts.foldl processPart st).dpi = st.dpi := by
  induction parts generalizing st with
  | nil => rfl
  | cons p rest ih =>
    have hp := processPart_dpi st p
    rw [h p (by simp)] at hp
    simp only [List.foldl_cons]
    rw [ih (processPart st p) (fun q hq => h q (by simp [hq]))]
    exact hp

/-- `lastFilePart` is the last element of the qualifying-part list. -/
lemma lastFilePart_eq_getLast? (parts : List Bytes) :
    lastFilePart parts = (parts.filterMap filePartData).getLast? := by
  induction parts with
  | nil => rfl
  | cons p rest ih =>
    cases hfp : filePartData p with
    | none =>
      simp only [lastFilePart, List.filterMap_cons, hfp, ih]
      cases (rest.filterMap filePartData).getLast? <;> rfl
    | some b =>
      simp only [lastFilePart, List.filterMap_cons, hfp, ih]
      rw [List.getLast?_cons]
      cases (rest.filterMap filePartData).getLast? <;> rfl

/-- When no segment qualifies as the file part, the qualifying-part list is
empty. -/
lemma filterMap_filePartData_nil (parts : List Bytes)
    (h : ∀ p ∈ parts, filePartData p = none) :
    parts.filterMap filePartData = [] := by
  induction parts with
  | nil => rfl
  | cons p rest ih =>
    simp only [List.filterMap_cons, h p (by simp)]
    exact ih (fun q hq => h q (by simp [hq]))

/-!  Helper lemmas about the batch tally loop. -/

/-- The `successful` counter counts exactly the items whose worker reported
success. -/
lemma foldl_tallyStep_success {α : Type} (engine : α → EngineRun)
    (files : List α) :
    ∀ acc : Nat × Nat × ℚ,
      (files.foldl (tallyStep engine) acc).1 =
        acc.1 + (files.filter (fun f => (process_file engine f).2.1)).length := by
  induction files with
  | nil => intro acc; simp
  | cons p rest ih =>
    intro acc
    simp only [List.foldl_cons]
    rw [ih]
    by_cases h : (process_file engine p).2.1
    · simp [tallyStep, h, List.filter_cons]
      omega
    · simp [tallyStep, h, List.filter_cons]

/-- The `failed` counter counts exactly the items whose worker reported
failure. -/
lemma foldl_tallyStep_failed {α : Type} (engine : α → EngineRun)
    (files : List α) :
    ∀ acc : Nat × Nat × ℚ,
      (files.foldl (tallyStep engine) acc).2.1 =
        acc.2.1 +
          (files.filter (fun f => !(process_file engine f).2.1)).length := by
  induction files with
  | nil => intro acc; simp
  | cons p rest ih =>
    intro acc
    simp only [List.foldl_cons]
    rw [ih]
    by_cases h : (process_file engine p).2.1
    · simp [tallyStep, h, List.filter_cons]
    · simp [tallyStep, h, List.filter_cons]
      omega

/-!  Helper lemmas about the registry transition system. -/

/-- The initial state satisfies the description with zero writes done. -/
lemma regSpec_init {ι : Type} (ps : ι → TaskParams) :
    RegSpec ps (fun _ => 0) (initRegState ps) :=
  fun _ => ⟨rfl, rfl⟩

/-- One worker step bumps the description at the stepped task. -/
lemma regSpec_step {ι : Type} [DecidableEq ι] {ps : ι → TaskParams}
    {c : ι → Nat} {s : RegState ι} (h : RegSpec ps c s) (j : ι) :
    RegSpec ps (fun k => if k = j then c k + 1 else c k) (workerStep s j) := by
  intro i
  unfold workerStep
  cases hr : s.remaining j with
  | nil =>
    have hj := (h j).1
    rw [hr] at hj
    rcases hcj : c j with _ | (_ | n) <;> rw [hcj] at hj
    · simp [workerWrites] at hj
    · simp [workerWrites] at hj
    · by_cases hij : i = j
      · refine ⟨?_, ?_⟩
        · rw [hij]
          show s.remaining j =
            List.drop (if j = j then c j + 1 else c j) (workerWrites (ps j))
          rw [hr, hcj]
          simp [workerWrites]
        · rw [hij]
          show s.registry j = regAfter (ps j) (if j = j then c j + 1 else c j)
          rw [(h j).2, hcj]
          simp [regAfter]
      · refine ⟨?_, ?_⟩
        · show s.remaining i =
            List.drop (if i = j then c i + 1 else c i) (workerWrites (ps i))
          rw [if_neg hij]
          exact (h i).1
        · show s.registry i = regAfter (ps i) (if i = j then c i + 1 else c i)
          rw [if_neg hij]
          exact (h i).2
  | cons e rest =>
    have hj := (h j).1
    rw [hr] at hj
    by_cases hij : i = j
    · rcases hcj : c j with _ | (_ | n) <;> rw [hcj] at hj
      · have hj' : e :: rest = [processingEntry, terminalEntry (ps j)] := by
          simpa [workerWrites] using hj
        injection hj' with he hrest
        refine ⟨?_, ?_⟩
        · rw [hij]
          show upd s.remaining j rest j =
            List.drop (if j = j then c j + 1 else c j) (workerWrites (ps j))
          rw [hcj]
          simp [upd, hrest, workerWrites]
        · rw [hij]
          show upd s.registry j (some e) j =
            regAfter (ps j) (if j = j then c j + 1 else c j)
          rw [hcj]
          simp [upd, he, regAfter]
      · have hj' : e :: rest = [terminalEntry (ps j)] := by
          simpa [workerWrites] using hj
        injection hj' with he hrest
        refine ⟨?_, ?_⟩
        · rw [hij]
          show upd s.remaining j rest j =
            List.drop (if j = j then c j + 1 else c j) (workerWrites (ps j))
          rw [hcj]
          simp [upd, hrest, workerWrites]
        · rw [hij]
          show upd s.registry j (some e) j =
            regAfter (ps j) (if j = j then c j + 1 else c j)
          rw [hcj]
          simp [upd, he, regAfter]
      · simp [workerWrites] at hj
    · refine ⟨?_, ?_⟩
      · show upd s.remaining j rest i =
          List.drop (if i = j then c i + 1 else c i) (workerWrites (ps i))
        rw [if_neg hij]
        simp only [upd, if_neg hij]
        exact (h i).1
      · show upd s.registry j (some e) i =
          regAfter (ps i) (if i = j then c i + 1 else c i)
        rw [if_neg hij]
        simp only [upd, if_neg hij]
        exact (h i).2

/-- Running a schedule advances the description by the number of times each
task was scheduled. -/
lemma regSpec_run {ι : Type} [DecidableEq ι] {ps : ι → TaskParams} :
    ∀ (sched : List ι) {c : ι → Nat} {s : RegState ι}, RegSpec ps c s →
      RegSpec ps (fun k => c k + countOcc k sched) (runSched s sched) := by
  intro sched
  induction sched with
  | nil =>
    intro c s h i
    simpa [countOcc, runSched] using h i
  | cons j tl ih =>
    intro c s h
    have h2 := ih (regSpec_step h j)
    intro i
    obtain ⟨ha, hb⟩ := h2 i
    refine ⟨?_, ?_⟩
    · show (runSched (workerStep s j) tl).remaining i =
        List.drop (c i + countOcc i (j :: tl)) (workerWrites (ps i))
      rw [ha]
      congr 1
      by_cases hij : i = j
      · simp [countOcc, hij] <;> omega
      · simp [countOcc, hij, Ne.symm hij] <;> omega
    · show (runSched (workerStep s j) tl).registry i =
        regAfter (ps i) (c i + countOcc i (j :: tl))
      rw [hb]
      congr 1
      by_cases hij : i = j
      · simp [countOcc, hij] <;> omega
      · simp [countOcc, hij, Ne.symm hij] <;> omega

/-!  Helper lemmas about the single-submission interleaving. -/

/-- The invariant holds right after `thread.start()`. -/
lemma submitInv_init (p : TaskParams) : SubmitInv p (submitInit p) :=
  Or.inl ⟨rfl, rfl⟩

/-- The invariant is preserved by every interleaving step. -/
lemma submitInv_step {p : TaskParams} {s : SubmitState}
    (h : SubmitInv p s) (σ : SubmitStep) : SubmitInv p (submitStepFn s σ) := by
  cases σ with
  | respond => exact h
  | work =>
    rcases h with ⟨h1, h2⟩ | ⟨h1, h2⟩ | ⟨h1, h2⟩
    · right; left
      constructor <;> simp [submitStepFn, h2, workerWrites]
    · right; right
      constructor <;> simp [submitStepFn, h2]
    · right; right
      have hs : submitStepFn s .work = s := by
        unfold submitStepFn
        rw [h2]
      rw [hs]
      exact ⟨h1, h2⟩

/-- The invariant is preserved by every interleaving. -/
lemma submitInv_run {p : TaskParams} :
    ∀ (sched : List SubmitStep) {s : SubmitState}, SubmitInv p s →
      SubmitInv p (runSubmit s sched) := by
  intro sched
  induction sched with
  | nil => intro s h; exact h
  | cons σ tl ih => intro s h; exact ih (submitInv_step h σ)

/-- A `respond` step never changes the registry nor the pending writes. -/
lemma submitStepFn_respond (s : SubmitState) :
    (submitStepFn s .respond).registry = s.registry ∧
    (submitStepFn s .respond).remaining = s.remaining :=
  ⟨rfl, rfl⟩

/-- When no segment of the body qualifies as the file part, `handle_convert`
replies with the no-file error. -/
lemma no_file_clientError (sanitize : Bytes → Bytes) (body boundary : Bytes)
    (h : ∀ p ∈ parseParts body boundary, filePartData p = none) :
    handle_convert sanitize body boundary =
      .clientError "No PDF file uploaded" := by
  have hlast : lastFilePart (parseParts body boundary) = none := by
    rw [lastFilePart_eq_getLast?, filterMap_filePartData_nil _ h]
    rfl
  have hpdf := foldl_processPart_pdf (parseParts body boundary) initParseState
  rw [hlast] at hpdf
  have hfile : (extractState body boundary).pdfFile = none := hpdf.2
  have hname : (extractState body boundary).pdfFilename = none := hpdf.1
  simp only [handle_convert]
  rw [hfile, hname]

/-- A Bool filter keeps a positive number of elements exactly when some
element satisfies the predicate. -/
lemma filter_length_pos_iff {α : Type} (p : α → Bool) (l : List α) :
    0 < (l.filter p).length ↔ ∃ a ∈ l, p a = true := by
  rw [List.length_pos_iff_exists_mem]
  constructor
  · rintro ⟨a, ha⟩
    rw [List.mem_filter] at ha
    exact ⟨a, ha.1, ha.2⟩
  · rintro ⟨a, ha, hp⟩
    exact ⟨a, List.mem_filter.mpr ⟨ha, hp⟩⟩

/-- A worker that has performed at least its two writes has the terminal
entry in the registry. -/
lemma regAfter_of_two_le (p : TaskParams) {n : Nat} (h : 2 ≤ n) :
    regAfter p n = some (terminalEntry p) := by
  rcases n with _ | (_ | k)
  · omega
  · omega
  · rfl

/-- A registry entry with terminal status can only be the worker's second
write, so the worker has performed both writes. -/
lemma regAfter_terminal {p : TaskParams} {n : Nat} {e : TaskEntry}
    (h : regAfter p n = some e) (ht : e.status.isTerminal = true) :
    2 ≤ n ∧ e = terminalEntry p := by
  rcases n with _ | (_ | k)
  · simp [regAfter] at h
  · have h' : some processingEntry = some e := h
    have he : e = processingEntry := (Option.some.inj h').symm
    rw [he] at ht
    exact absurd ht (by decide)
  · have h' : some (terminalEntry p) = some e := h
    exact ⟨by omega, (Option.some.inj h').symm⟩

/-!  The claims. -/

/-- C2: a multipart submission in which no part qualifies as the file part
(no part has both a filename and field name `pdf_file`) is answered with the
`No PDF file uploaded` input error, registering no task and persisting no
bytes; and a recovered upload whose sanitized filename does not end in `.pdf`
(case-insensitively) is answered with the invalid-file-type error, likewise
registering no task and persisting no bytes. -/
theorem c2_missing_or_invalid_file_rejected :
    ∀ (sanitize : Bytes → Bytes) (body boundary : Bytes),
      ((∀ p ∈ parseParts body boundary, filePartData p = none) →
        handle_convert sanitize body boundary =
          .clientError "No PDF file uploaded" ∧
        registersTask (handle_convert sanitize body boundary) = false ∧
        persistedUpload (handle_convert sanitize body boundary) = none) ∧
      (∀ fileBytes origName : Bytes,
        (extractState body boundary).pdfFile = some fileBytes →
        (extractState body boundary).pdfFilename = some origName →
        (".pdf".toList).isSuffixOf (lowerBytes (sanitize origName)) = false →
        handle_convert sanitize body boundary =
          .clientError "Invalid file type. Only PDF files are supported." ∧
        registersTask (handle_convert sanitize body boundary) = false ∧
        persistedUpload (handle_convert sanitize body boundary) = none) := by
  intro sanitize body boundary
  constructor
  · intro h
    have hres := no_file_clientError sanitize body boundary h
    exact ⟨hres, by simp [hres, registersTask], by simp [hres, persistedUpload]⟩
  · intro fileBytes origName hf hn hsuf
    have hres : handle_convert sanitize body boundary =
        .clientError "Invalid file type. Only PDF files are supported." := by
      simp only [handle_convert]
      rw [hf, hn]
      simp only [hsuf]
      rfl
    exact ⟨hres, by simp [hres, registersTask], by simp [hres, persistedUpload]⟩

/-- C2 witness: the empty body produces the no-file error, and a `.txt`
upload produces the invalid-file-type error. -/
theorem c2_missing_or_invalid_file_rejected_witness :
    handle_convert (fun s => s) [] ("B".toList) =
      .clientError "No PDF file uploaded" ∧
    handle_convert (fun s => s) bodyTxtUpload ("B".toList) =
      .clientError "Invalid file type. Only PDF files are supported." := by
  constructor
  · exact ((c2_missing_or_invalid_file_rejected (fun s => s) [] ("B".toList)).1
      (by decide)).1
  · exact ((c2_missing_or_invalid_file_rejected (fun s => s) bodyTxtUpload
      ("B".toList)).2 ("AAA".toList) ("a.txt".toList)
      (by decide) (by decide) (by decide)).1

/-- C5: when at least two segments qualify as the file part, the parsing loop
keeps the last qualifying segment in body order: the recovered filename and
bytes are those of the final qualifying part, and (when the sanitized name
passes the extension check) exactly those bytes are the ones accepted for
persistence. -/
theorem c5_last_file_part_wins :
    ∀ (body boundary : Bytes),
      2 ≤ ((parseParts body boundary).filterMap filePartData).length →
      ∃ fn bs : Bytes,
        ((parseParts body boundary).filterMap filePartData).getLast? =
          some (fn, bs) ∧
        (extractState body boundary).pdfFilename = some fn ∧
        (extractState body boundary).pdfFile = some bs ∧
        ∀ sanitize : Bytes → Bytes,
          (".pdf".toList).isSuffixOf (lowerBytes (sanitize fn)) = true →
          handle_convert sanitize body boundary =
            .accepted (sanitize fn) bs (extractState body boundary).ocrLang
              (extractState body boundary).dpi := by
  intro body boundary hlen
  have hne : (parseParts body boundary).filterMap filePartData ≠ [] := by
    intro hnil
    rw [hnil] at hlen
    simp at hlen
  cases hx : ((parseParts body boundary).filterMap filePartData).getLast? with
  | none =>
    rw [List.getLast?_eq_none_iff] at hx
    exact absurd hx hne
  | some x =>
    obtain ⟨fn, bs⟩ := x
    have hlast : lastFilePart (parseParts body boundary) = some (fn, bs) := by
      rw [lastFilePart_eq_getLast?]
      exact hx
    have hpdf := foldl_processPart_pdf (parseParts body boundary) initParseState
    rw [hlast] at hpdf
    have h1 : (extractState body boundary).pdfFilename = some fn := hpdf.1
    have h2 : (extractState body boundary).pdfFile = some bs := hpdf.2
    refine ⟨fn, bs, rfl, h1, h2, ?_⟩
    intro sanitize hsuf
    simp only [handle_convert]
    rw [h1, h2]
    simp only [hsuf]
    rfl

/-- C5 witness: on a two-file body the loop keeps the second file part. -/
theorem c5_last_file_part_wins_witness :
    ∃ fn bs : Bytes,
      ((parseParts bodyTwoFileParts ("B".toList)).filterMap
        filePartData).getLast? = some (fn, bs) ∧
      (extractState bodyTwoFileParts ("B".toList)).pdfFilename = some fn ∧
      (extractState bodyTwoFileParts ("B".toList)).pdfFile = some bs ∧
      ∀ sanitize : Bytes → Bytes,
        (".pdf".toList).isSuffixOf (lowerBytes (sanitize fn)) = true →
        handle_convert sanitize bodyTwoFileParts ("B".toList) =
          .accepted (sanitize fn) bs
            (extractState bodyTwoFileParts ("B".toList)).ocrLang
            (extractState bodyTwoFileParts ("B".toList)).dpi :=
  c5_last_file_part_wins bodyTwoFileParts ("B".toList) (by decide)

/-- C7: when no part of the body is an `ocr_lang` field part, the language
used is the default `eng`; when no part is a `dpi` field part whose content
parses as an integer (the field being absent or its content failing numeric
parsing), the resolution used is the default `300`. -/
theorem c7_default_lang_dpi :
    ∀ (body boundary : Bytes),
      ((∀ p ∈ parseParts body boundary, langFieldData p = none) →
        (extractState body boundary).ocrLang = defaultLang) ∧
      ((∀ p ∈ parseParts body boundary, dpiFieldData p = none) →
        (extractState body boundary).dpi = 300) := by
  intro body boundary
  constructor
  · intro h
    exact foldl_processPart_lang (parseParts body boundary) initParseState h
  · intro h
    exact foldl_processPart_dpi (parseParts body boundary) initParseState h

/-- C7 witness: a body with a file part and no field parts keeps both
defaults. -/
theorem c7_default_lang_dpi_witness :
    (extractState bodyTwoFileParts ("B".toList)).ocrLang = defaultLang ∧
    (extractState bodyTwoFileParts ("B".toList)).dpi = 300 :=
  ⟨(c7_default_lang_dpi bodyTwoFileParts ("B".toList)).1 (by decide),
   (c7_default_lang_dpi bodyTwoFileParts ("B".toList)).2 (by decide)⟩

/-- C9: a part carrying a `filename` attribute whose field name is not
`pdf_file` is ignored entirely — the loop state is unchanged, so it acts
neither as the file part nor as a field part — and a body all of whose
filename-bearing parts use another field name is rejected with the
no-file-uploaded error. -/
theorem c9_foreign_filename_part_ignored :
    (∀ (st : ParseState) (part : Bytes), partFilename part ≠ none →
      partName part ≠ some fieldPdfFile → processPart st part = st) ∧
    (∀ (sanitize : Bytes → Bytes) (body boundary : Bytes),
      (∀ p ∈ parseParts body boundary,
        partFilename p ≠ none → partName p ≠ some fieldPdfFile) →
      handle_convert sanitize body boundary =
        .clientError "No PDF file uploaded") := by
  constructor
  · intro st part h1 h2
    unfold processPart
    cases hpf : partFields part with
    | none => rfl
    | some pc =>
      obtain ⟨pd, content⟩ := pc
      cases hfn : dictGet pd keyFilename with
      | none =>
        exfalso
        exact h1 (by simp [partFilename, hpf, hfn])
      | some fname =>
        have hnm : ¬ dictGet pd keyName = some fieldPdfFile := by
          intro hc
          exact h2 (by simp [partName, hpf, hc])
        simp [hfn, hnm]
  · intro sanitize body boundary h
    apply no_file_clientError
    intro p hp
    unfold filePartData
    cases hpf : partFields p with
    | none => rfl
    | some pc =>
      obtain ⟨pd, content⟩ := pc
      cases hfn : dictGet pd keyFilename with
      | none => simp [hfn]
      | some fname =>
        have h1 : partFilename p ≠ none := by simp [partFilename, hpf, hfn]
        have hnm : ¬ dictGet pd keyName = some fieldPdfFile := by
          intro hc
          exact h p hp h1 (by simp [partName, hpf, hc])
        simp [hfn, hnm]

/-- C9 witness: the one-part processing leaves the state unchanged on a
foreign filename-bearing part, and the whole body is rejected with the
no-file error. -/
theorem c9_foreign_filename_part_ignored_witness :
    processPart initParseState
        (('\r') :: ('\n') :: ("Content-Disposition: form-data; " ++
          "name=\"other\"; filename=\"a.pdf\"\r\n\r\nAAA\r\n").toList) =
      initParseState ∧
    handle_convert (fun s => s) bodyForeignFilePart ("B".toList) =
      .clientError "No PDF file uploaded" := by
  constructor
  · exact c9_foreign_filename_part_ignored.1 initParseState _
      (by decide) (by decide)
  · exact c9_foreign_filename_part_ignored.2 (fun s => s) bodyForeignFilePart
      ("B".toList) (by decide)

/-- C8: download resolution replies 404 exactly when no stored artifact name
begins with the requested identifier; the identifier extracted from the
request path `/download/` is the empty string, and the empty string is a
prefix of every stored name, so a non-empty Artifact Store then serves some
stored artifact instead of replying 404. -/
theorem c8_download_not_found_iff_no_match :
    ∀ (stored : List Bytes) (fileId : Bytes),
      (handle_download stored fileId = none ↔
        ∀ name ∈ stored, fileId.isPrefixOf name = false) ∧
      downloadFileId ("/download/".toList) = [] ∧
      (stored ≠ [] →
        ∃ a, handle_download stored (downloadFileId ("/download/".toList)) =
          some a) := by
  intro stored fileId
  refine ⟨?_, by decide, ?_⟩
  · unfold handle_download
    rw [List.find?_eq_none]
    constructor
    · intro h name hn
      have hx := h name hn
      cases hb : List.isPrefixOf fileId name
      · rfl
      · exact absurd hb hx
    · intro h name hn
      simp [h name hn]
  · intro hne
    have h0 : downloadFileId ("/download/".toList) = [] := by decide
    rw [h0]
    cases stored with
    | nil => exact absurd rfl hne
    | cons a rest =>
      refine ⟨a, ?_⟩
      unfold handle_download
      exact List.find?_cons_of_pos _ (by cases a <;> rfl)

/-- C8 witness: with two stored artifacts, an unmatched id yields 404 and the
empty id from `/download/` serves the first artifact. -/
theorem c8_download_not_found_iff_no_match_witness :
    (handle_download ["x1".toList, "y2".toList] ("z".toList) = none ↔
      ∀ name ∈ (["x1".toList, "y2".toList] : List Bytes),
        ("z".toList).isPrefixOf name = false) ∧
    ∃ a, handle_download ["x1".toList, "y2".toList]
        (downloadFileId ("/download/".toList)) = some a :=
  ⟨(c8_download_not_found_iff_no_match ["x1".toList, "y2".toList]
      ("z".toList)).1,
   (c8_download_not_found_iff_no_match ["x1".toList, "y2".toList]
      ("z".toList)).2.2 (by decide)⟩

/-- C4: a batch run succeeds (and the CLI exits 0) exactly when at least one
item succeeded; on empty input resolution it returns the `noFiles` failure
with overall-success false and the CLI exits 1. -/
theorem c4_batch_success_iff_any_item :
    ∀ {α : Type} (engine : α → EngineRun) (files : List α),
      (batchSuccess (batch_convert engine files) = true ↔
        ∃ f ∈ files, (process_file engine f).2.1 = true) ∧
      (files = [] → batch_convert engine files = .noFiles ∧
        batchSuccess (batch_convert engine files) = false ∧
        batchMainExit engine files = 1) ∧
      (batchMainExit engine files = 0 ↔
        batchSuccess (batch_convert engine files) = true) := by
  intro α engine files
  have hsucc : (batchTally engine files).1 =
      (files.filter (fun f => (process_file engine f).2.1)).length := by
    simpa using foldl_tallyStep_success engine files (0, 0, 0)
  refine ⟨?_, ?_, ?_⟩
  · by_cases hf : files = []
    · subst hf
      simp [batch_convert, batchSuccess]
    · have hne : ¬ (files.isEmpty = true) := by
        simpa [List.isEmpty_iff] using hf
      simp only [batch_convert, if_neg hne, batchSuccess]
      rw [hsucc]
      simp only [decide_eq_true_eq]
      exact filter_length_pos_iff _ files
  · intro hf
    subst hf
    exact ⟨by simp [batch_convert], by simp [batch_convert, batchSuccess],
      by simp [batchMainExit, batch_convert, batchSuccess]⟩
  · unfold batchMainExit
    by_cases hb : batchSuccess (batch_convert engine files) = true
    · simp [hb]
    · simp [hb]

/-- C4 witness: one succeeding item gives success and exit 0; the empty run
gives `noFiles` and exit 1. -/
theorem c4_batch_success_iff_any_item_witness :
    batchSuccess (batch_convert (fun _ : Nat => EngineRun.ret true 1) [0]) =
      true ∧
    batch_convert (fun _ : Nat => EngineRun.ret true 1) ([] : List Nat) =
      .noFiles ∧
    batchMainExit (fun _ : Nat => EngineRun.ret true 1) ([] : List Nat) = 1 := by
  refine ⟨?_, ?_, ?_⟩
  · exact (c4_batch_success_iff_any_item (fun _ : Nat => EngineRun.ret true 1)
      [0]).1.mpr ⟨0, by decide, by decide⟩
  · exact ((c4_batch_success_iff_any_item (fun _ : Nat => EngineRun.ret true 1)
      ([] : List Nat)).2.1 rfl).1
  · exact ((c4_batch_success_iff_any_item (fun _ : Nat => EngineRun.ret true 1)
      ([] : List Nat)).2.1 rfl).2.2

/-- C6: an exception raised by the Conversion Engine for one batch item is
caught inside that item's worker and recorded as the failure result
`(item, False, 0)`; items other than `i` produce identical results under any
two engines that agree off `i`, so one item's behaviour never affects the
others; the run completes with a summary whenever any item resolved, and
aborts (returns the `noFiles` failure) only when zero items resolved. -/
theorem c6_item_exception_isolated :
    ∀ {α : Type} (engine engine' : α → EngineRun) (files : List α) (i : α)
      (m : String),
      (engine i = .exn m → process_file engine i = (i, false, 0)) ∧
      ((∀ j, j ≠ i → engine j = engine' j) →
        ∀ j ∈ files, j ≠ i → process_file engine j = process_file engine' j) ∧
      (files ≠ [] → ∃ s, batch_convert engine files = .done s) ∧
      (batch_convert engine files = .noFiles ↔ files = []) := by
  intro α engine engine' files i m
  refine ⟨?_, ?_, ?_, ?_⟩
  · intro h
    simp [process_file, h]
  · intro h j _ hji
    simp [process_file, h j hji]
  · intro hf
    have hne : ¬ (files.isEmpty = true) := by
      simpa [List.isEmpty_iff] using hf
    exact ⟨{ successful := (batchTally engine files).1,
             failed := (batchTally engine files).2.1,
             totalTime := (batchTally engine files).2.2,
             avgTime := if 0 < (batchTally engine files).1 then
               some ((batchTally engine files).2.2 /
                 ((batchTally engine files).1 : ℚ))
             else none },
           by unfold batch_convert; rw [if_neg hne]⟩
  · constructor
    · intro h
      by_cases hf : files = []
      · exact hf
      · have hne : ¬ (files.isEmpty = true) := by
          simpa [List.isEmpty_iff] using hf
        rw [batch_convert, if_neg hne] at h
        cases h
    · intro hf
      subst hf
      simp [batch_convert]

/-- C6 witness: a raising engine on item `0` yields the recorded failure
`(0, False, 0)`, other items are unaffected, and the two-item run still
completes. -/
theorem c6_item_exception_isolated_witness :
    process_file (fun j : Nat => if j = 0 then .exn "boom" else .ret true 1) 0 =
      (0, false, 0) ∧
    process_file (fun j : Nat => if j = 0 then .exn "boom" else .ret true 1) 1 =
      process_file (fun _ : Nat => EngineRun.ret true 1) 1 ∧
    ∃ s, batch_convert
        (fun j : Nat => if j = 0 then .exn "boom" else .ret true 1) [0, 1] =
      .done s := by
  refine ⟨?_, ?_, ?_⟩
  · exact (c6_item_exception_isolated
      (fun j : Nat => if j = 0 then .exn "boom" else .ret true 1)
      (fun _ : Nat => EngineRun.ret true 1) [0, 1] 0 "boom").1 (by decide)
  · exact (c6_item_exception_isolated
      (fun j : Nat => if j = 0 then .exn "boom" else .ret true 1)
      (fun _ : Nat => EngineRun.ret true 1) [0, 1] 0 "boom").2.1
      (fun j hj => by simp [hj]) 1 (by decide) (by decide)
  · exact (c6_item_exception_isolated
      (fun j : Nat => if j = 0 then .exn "boom" else .ret true 1)
      (fun _ : Nat => EngineRun.ret true 1) [0, 1] 0 "boom").2.2.1 (by decide)

/-- C10: in a run with at least one resolved item, each item is counted
exactly once (`successful + failed` equals the number of resolved files), the
average is present exactly when the successful count is positive, and the
division defining it is performed only with a non-zero successful count. -/
theorem c10_summary_partition_and_avg_guard :
    ∀ {α : Type} (engine : α → EngineRun) (files : List α), files ≠ [] →
      ∃ s : BatchSummary, batch_convert engine files = .done s ∧
        s.successful + s.failed = files.length ∧
        (s.avgTime.isSome = true ↔ 0 < s.successful) ∧
        (∀ q : ℚ, s.avgTime = some q →
          s.successful ≠ 0 ∧ q = s.totalTime / (s.successful : ℚ)) := by
  intro α engine files hf
  have hne : ¬ (files.isEmpty = true) := by
    simpa [List.isEmpty_iff] using hf
  have hsucc : (batchTally engine files).1 =
      (files.filter (fun f => (process_file engine f).2.1)).length := by
    simpa using foldl_tallyStep_success engine files (0, 0, 0)
  have hfail : (batchTally engine files).2.1 =
      (files.filter (fun f => !(process_file engine f).2.1)).length := by
    simpa using foldl_tallyStep_failed engine files (0, 0, 0)
  have hdone : batch_convert engine files = .done
      { successful := (batchTally engine files).1,
        failed := (batchTally engine files).2.1,
        totalTime := (batchTally engine files).2.2,
        avgTime := if 0 < (batchTally engine files).1 then
          some ((batchTally engine files).2.2 /
            ((batchTally engine files).1 : ℚ))
        else none } := by
    unfold batch_convert
    rw [if_neg hne]
  refine ⟨_, hdone, ?_, ?_, ?_⟩
  · show (batchTally engine files).1 + (batchTally engine files).2.1 =
      files.length
    rw [hsucc, hfail]
    exact (List.length_eq_length_filter_add _).symm
  · show (if 0 < (batchTally engine files).1 then
        some ((batchTally engine files).2.2 /
          ((batchTally engine files).1 : ℚ))
      else none).isSome = true ↔ 0 < (batchTally engine files).1
    by_cases hp : 0 < (batchTally engine files).1
    · simp [hp]
    · simp [hp]
  · intro q hq
    have hq' : (if 0 < (batchTally engine files).1 then
        some ((batchTally engine files).2.2 /
          ((batchTally engine files).1 : ℚ))
      else none) = some q := hq
    by_cases hp : 0 < (batchTally engine files).1
    · rw [if_pos hp] at hq'
      injection hq' with hq2
      refine ⟨?_, hq2.symm⟩
      show (batchTally engine files).1 ≠ 0
      omega
    · rw [if_neg hp] at hq'
      cases hq'

/-- C10 witness: a two-item run with one success and one failure partitions
the count and carries a defined average. -/
theorem c10_summary_partition_and_avg_guard_witness :
    ∃ s : BatchSummary,
      batch_convert
          (fun j : Nat => if j = 0 then EngineRun.ret true 4 else .exn "boom")
          [0, 1] = .done s ∧
      s.successful + s.failed = 2 ∧
      (s.avgTime.isSome = true ↔ 0 < s.successful) ∧
      (∀ q : ℚ, s.avgTime = some q →
        s.successful ≠ 0 ∧ q = s.totalTime / (s.successful : ℚ)) :=
  c10_summary_partition_and_avg_guard
    (fun j : Nat => if j = 0 then EngineRun.ret true 4 else .exn "boom")
    [0, 1] (by decide)

/-- C3: registry entries are written only by the worker owning the task (a
step of worker `i` changes no other key); once the worker has been scheduled
at least twice, the entry holds the terminal entry determined by the engine
outcome; terminal entries have terminal status; and an entry that has reached
a terminal state never changes again under any further schedule — in
particular it never returns to `processing`. -/
theorem c3_task_single_writer_terminal_no_regression :
    ∀ {ι : Type} [DecidableEq ι] (ps : ι → TaskParams) (i : ι),
      (∀ (s : RegState ι) (j : ι), j ≠ i →
        (workerStep s i).registry j = s.registry j ∧
        (workerStep s i).remaining j = s.remaining j) ∧
      (∀ sched : List ι, 2 ≤ countOcc i sched →
        (runSched (initRegState ps) sched).registry i =
          some (terminalEntry (ps i))) ∧
      (∀ p : TaskParams, (terminalEntry p).status.isTerminal = true) ∧
      (∀ (sched sched' : List ι) (e : TaskEntry),
        (runSched (initRegState ps) sched).registry i = some e →
        e.status.isTerminal = true →
        (runSched (runSched (initRegState ps) sched) sched').registry i =
          some e) := by
  intro ι inst ps i
  refine ⟨?_, ?_, ?_, ?_⟩
  · intro s j hj
    unfold workerStep
    cases hr : s.remaining i with
    | nil => exact ⟨rfl, rfl⟩
    | cons e rest =>
      constructor
      · show upd s.registry i (some e) j = s.registry j
        simp [upd, hj]
      · show upd s.remaining i rest j = s.remaining j
        simp [upd, hj]
  · intro sched h2
    have hs := regSpec_run sched (regSpec_init ps)
    have hreg : (runSched (initRegState ps) sched).registry i =
        regAfter (ps i) (0 + countOcc i sched) := (hs i).2
    rw [hreg]
    exact regAfter_of_two_le (ps i) (by omega)
  · intro p
    cases hres : p.res <;> simp [terminalEntry, hres, Status.isTerminal]
  · intro sched sched' e he hterm
    have hs := regSpec_run sched (regSpec_init ps)
    have hreg : (runSched (initRegState ps) sched).registry i =
        regAfter (ps i) (0 + countOcc i sched) := (hs i).2
    have h3 : regAfter (ps i) (0 + countOcc i sched) = some e :=
      hreg.symm.trans he
    obtain ⟨hn2, he'⟩ := regAfter_terminal h3 hterm
    have hs2 := regSpec_run sched' hs
    have hreg2 : (runSched (runSched (initRegState ps) sched) sched').registry
        i = regAfter (ps i) (0 + countOcc i sched + countOcc i sched') :=
      (hs2 i).2
    rw [hreg2, he']
    exact regAfter_of_two_le (ps i) (by omega)

/-- C3 witness: with engine success and schedule `[0, 0]`, task `0` reaches
the terminal `completed` entry, and appending more schedule leaves it
unchanged. -/
theorem c3_task_single_writer_terminal_no_regression_witness :
    (runSched (initRegState
        (fun _ : Nat => ⟨EngineResult.success, "fid", "out.docx"⟩))
        [0, 0]).registry 0 =
      some (terminalEntry ⟨EngineResult.success, "fid", "out.docx"⟩) ∧
    (runSched (runSched (initRegState
        (fun _ : Nat => ⟨EngineResult.success, "fid", "out.docx"⟩)) [0, 0])
        [0, 1]).registry 0 =
      some (terminalEntry ⟨EngineResult.success, "fid", "out.docx"⟩) := by
  have h1 := (c3_task_single_writer_terminal_no_regression
    (fun _ : Nat => ⟨EngineResult.success, "fid", "out.docx"⟩) 0).2.1 [0, 0]
    (by decide)
  refine ⟨h1, ?_⟩
  exact (c3_task_single_writer_terminal_no_regression
    (fun _ : Nat => ⟨EngineResult.success, "fid", "out.docx"⟩) 0).2.2.2 [0, 0]
    [0, 1] _ h1 (by decide)

/-- C1 counterexample: in the interleaving where the handler's reply runs
before the spawned worker's first statement, submit has already returned the
task id while the registry holds no entry for it — the claim that the entry
with status `processing` is present as soon as submit returns fails on this
execution. -/
theorem c1_submit_return_registry_counterexample :
    (runSubmit (submitInit ⟨EngineResult.success, "fid", "out.docx"⟩)
      [SubmitStep.respond]).responded = true ∧
    (runSubmit (submitInit ⟨EngineResult.success, "fid", "out.docx"⟩)
      [SubmitStep.respond]).registry = none := by
  constructor <;> rfl

/-- C1 (amended): submit starts the owning background worker before returning
the task id, but the `processing` registration is the worker's first action,
not submit's: at any point after submit has returned, the registry entry for
the id is either not yet present, the `processing` entry, or already the
terminal entry; and whenever the entry is absent, the only entry the next
step can create is the `processing` one. -/
theorem c1_submit_registration_amended :
    ∀ (p : TaskParams) (sched : List SubmitStep),
      ((runSubmit (submitInit p) sched).responded = true →
        (runSubmit (submitInit p) sched).registry = none ∨
        (runSubmit (submitInit p) sched).registry = some processingEntry ∨
        (runSubmit (submitInit p) sched).registry = some (terminalEntry p)) ∧
      ((runSubmit (submitInit p) sched).registry = none →
        ∀ σ : SubmitStep,
          (submitStepFn (runSubmit (submitInit p) sched) σ).registry = none ∨
          (submitStepFn (runSubmit (submitInit p) sched) σ).registry =
            some processingEntry) := by
  intro p sched
  have hinv := submitInv_run sched (submitInv_init p)
  constructor
  · intro _
    rcases hinv with ⟨h1, _⟩ | ⟨h1, _⟩ | ⟨h1, _⟩
    · exact Or.inl h1
    · exact Or.inr (Or.inl h1)
    · exact Or.inr (Or.inr h1)
  · intro hnone σ
    rcases hinv with ⟨h1, h2⟩ | ⟨h1, h2⟩ | ⟨h1, h2⟩
    · cases σ with
      | respond => exact Or.inl h1
      | work =>
        right
        show (submitStepFn (runSubmit (submitInit p) sched) .work).registry =
          some processingEntry
        unfold submitStepFn
        rw [h2]
        rfl
    · exact absurd (hnone.symm.trans h1) (by simp)
    · exact absurd (hnone.symm.trans h1) (by simp)

/-- C1 amended witness: after the reply and one worker step, the registry
holds one of the three permitted values (here: the `processing` entry). -/
theorem c1_submit_registration_amended_witness :
    (runSubmit (submitInit ⟨EngineResult.success, "fid", "out.docx"⟩)
      [SubmitStep.respond, SubmitStep.work]).registry = none ∨
    (runSubmit (submitInit ⟨EngineResult.success, "fid", "out.docx"⟩)
      [SubmitStep.respond, SubmitStep.work]).registry = some processingEntry ∨
    (runSubmit (submitInit ⟨EngineResult.success, "fid", "out.docx"⟩)
      [SubmitStep.respond, SubmitStep.work]).registry =
      some (terminalEntry ⟨EngineResult.success, "fid", "out.docx"⟩) :=
  (c1_submit_registration_amended ⟨EngineResult.success, "fid", "out.docx"⟩
    [SubmitStep.respond, SubmitStep.work]).1 rfl

end PdfOcr




